import Mathlib

/-!
Shallow embedding of the heydwiki-backend validation / controller layer.

Conventions used throughout this development:
* TypeScript functions that may `throw new AppError(...)` are embedded as
  functions into `Except AppError _`.
* JavaScript runtime values fed to the validators (`unknown`-typed request
  fields) are embedded as the inductive `JSValue`.
* JavaScript numbers are embedded as `JNum`: the validators only ever observe
  `Number.isInteger` and integer comparisons, so a number is modelled as either
  `nan`, an exact integer, or some other (non-integer or infinite) number.
* String builtins (`trim`, `toLowerCase`, `length`, lexicographic `<`) are
  modelled by the corresponding Lean `String` operations; this is exact for the
  ASCII data these endpoints handle.
* External collaborators (the HTML sanitizer, the JWT verifier, the object
  storage client) are passed in as explicit function parameters.
-/

namespace HeyDwiki

/-- `AppError` from `utils/app-error.ts`: HTTP status, machine code, message and
optional details (details are only ever string-like where observed here). -/
structure AppError where
  statusCode : Nat
  code : String
  message : String
  details : Option String := none
  deriving Repr, DecidableEq

/-- Shorthand used by every validator: `new AppError(400, "BAD_REQUEST", msg)`. -/
def badRequest (msg : String) : AppError :=
  { statusCode := 400, code := "BAD_REQUEST", message := msg }

/-- Model of a JavaScript number as observed by this code base: the validators
only apply `Number.isInteger` and compare integers, so any finite non-integer
or infinite value is collapsed into `nonInt`. -/
inductive JNum where
  | nan
  | int (i : Int)
  | nonInt
  deriving Repr, DecidableEq

/-- Model of a JavaScript runtime value (an `unknown`-typed request field). -/
inductive JSValue where
  | undef
  | null
  | bool (b : Bool)
  | num (n : JNum)
  | str (s : String)
  | arr (xs : List JSValue)
  | obj (fields : List (String × JSValue))
  deriving Repr

/-- `v === undefined` on a `JSValue`. -/
def JSValue.isUndef : JSValue → Bool
  | JSValue.undef => true
  | _ => false

/-- `v === null` on a `JSValue`. -/
def JSValue.isNull : JSValue → Bool
  | JSValue.null => true
  | _ => false

/-- Property access `body.field` on a plain object: first binding wins,
missing key yields `undefined`. -/
def jsLookup (fields : List (String × JSValue)) (key : String) : JSValue :=
  match fields.find? (fun p => p.1 = key) with
  | some p => p.2
  | none => JSValue.undef

/-- Model of the JavaScript `Boolean(v)` coercion. -/
def jsBoolean : JSValue → Bool
  | JSValue.undef => false
  | JSValue.null => false
  | JSValue.bool b => b
  | JSValue.num JNum.nan => false
  | JSValue.num (JNum.int i) => decide (i ≠ 0)
  | JSValue.num JNum.nonInt => true
  | JSValue.str s => !s.isEmpty
  | JSValue.arr _ => true
  | JSValue.obj _ => true

/-- JavaScript whitespace as observed by `String.prototype.trim` (the common
ASCII whitespace characters). -/
def jsWhitespace (c : Char) : Bool :=
  c = ' ' || c = '\t' || c = '\n' || c = '\r' || c = '\x0b' || c = '\x0c'

/-- Model of `String.prototype.trim`: strip leading and trailing whitespace. -/
def jsTrim (s : String) : String :=
  String.mk (((s.data.dropWhile jsWhitespace).reverse.dropWhile jsWhitespace).reverse)

/-- Model of `String.prototype.toLowerCase` (ASCII case folding, which is
exact for the data these endpoints handle). -/
def jsToLower (s : String) : String :=
  String.mk (s.data.map Char.toLower)

/-- `pat` is a prefix of `cs`. -/
def headMatches : List Char → List Char → Bool
  | [], _ => true
  | _ :: _, [] => false
  | a :: as, b :: bs => a = b && headMatches as bs

/-- Model of `String.prototype.startsWith`. -/
def jsStartsWith (s pat : String) : Bool :=
  headMatches pat.data s.data

/-- Model of `String.prototype.slice(n)` for a non-negative character index. -/
def jsDrop (s : String) (n : Nat) : String :=
  String.mk (s.data.drop n)

/-- Lexicographic character comparison on lists, as JavaScript `<` compares
strings (code-unit order, which is code-point order on the BMP data handled
here). -/
def jsStrLtChars : List Char → List Char → Bool
  | [], [] => false
  | [], _ :: _ => true
  | _ :: _, [] => false
  | a :: as, b :: bs =>
    if a < b then true
    else if b < a then false
    else jsStrLtChars as bs

/-- Model of JavaScript `<` on strings. -/
def jsStrLt (a b : String) : Bool :=
  jsStrLtChars a.data b.data

/-- All characters of the list are decimal digits. -/
def allDigits (cs : List Char) : Bool :=
  cs.all Char.isDigit

/-- Numeric value of a list of decimal digits (most significant first). -/
def digitsToNat (cs : List Char) : Nat :=
  cs.foldl (fun acc c => acc * 10 + (c.toNat - 48)) 0

/-- Split a character list at the first `'.'`, keeping the part after it
(`none` when there is no dot). -/
def splitDot : List Char → List Char × Option (List Char)
  | [] => ([], none)
  | c :: rest =>
    if c = '.' then ([], some rest)
    else
      let p := splitDot rest
      (c :: p.1, p.2)

/-- Model of the JavaScript `Number(string)` coercion, restricted to the forms
this code base can receive: surrounding whitespace, an optional sign, and a
decimal literal with optional fractional part, plus `Infinity`. Exponent and
hex forms are not modelled (they map to `nan` here). -/
def jsStringToNum (s : String) : JNum :=
  let t := jsTrim s
  if t.isEmpty then JNum.int 0
  else
    let (neg, body) :=
      match t.data with
      | '-' :: rest => (true, rest)
      | '+' :: rest => (false, rest)
      | cs => (false, cs)
    if body = "Infinity".data then JNum.nonInt
    else
      let (intPart, fracPart?) := splitDot body
      match fracPart? with
      | none =>
        if intPart ≠ [] ∧ allDigits intPart then
          JNum.int (if neg then -(digitsToNat intPart : Int) else (digitsToNat intPart : Int))
        else JNum.nan
      | some fracPart =>
        if (intPart ≠ [] ∨ fracPart ≠ []) ∧ allDigits intPart ∧ allDigits fracPart then
          if digitsToNat fracPart = 0 then
            JNum.int (if neg then -(digitsToNat intPart : Int) else (digitsToNat intPart : Int))
          else JNum.nonInt
        else JNum.nan

/-- Model of the JavaScript `Number(v)` coercion on the value shapes that can
reach the numeric validators. Arrays coerce through their joined string form;
only the empty and one-element cases are modelled exactly, nested exotica map
to `nan`. -/
def jsToNumber : JSValue → JNum
  | JSValue.undef => JNum.nan
  | JSValue.null => JNum.int 0
  | JSValue.bool b => JNum.int (if b then 1 else 0)
  | JSValue.num n => n
  | JSValue.str s => jsStringToNum s
  | JSValue.arr [] => JNum.int 0
  | JSValue.arr [JSValue.str s] => jsStringToNum s
  | JSValue.arr [JSValue.num n] => n
  | JSValue.arr _ => JNum.nan
  | JSValue.obj _ => JNum.nan

/-- JavaScript truthiness of a `string | null | undefined` value:
`null`/`undefined` and the empty string are falsy. -/
def strTruthy : Option String → Bool
  | none => false
  | some s => !s.isEmpty

/-- `value ?? fallback` on a `JSValue` (nullish coalescing). -/
def jsNullish (v fallback : JSValue) : JSValue :=
  if v.isUndef || v.isNull then fallback else v

/-! ## Validators (`utils/validators.ts`) -/

/-- `validateRequiredString`: must be a string, non-empty after trimming;
returns the trimmed value. -/
def validateRequiredString (value : JSValue) (fieldName : String) : Except AppError String :=
  match value with
  | JSValue.str s =>
    if (jsTrim s).isEmpty then Except.error (badRequest (fieldName ++ " is required"))
    else Except.ok (jsTrim s)
  | _ => Except.error (badRequest (fieldName ++ " is required"))

/-- `validateOptionalString`: `undefined` passes through; otherwise must be a
string that is non-empty after trimming. -/
def validateOptionalString (value : JSValue) (fieldName : String) :
    Except AppError (Option String) :=
  match value with
  | JSValue.undef => Except.ok none
  | JSValue.str s =>
    if (jsTrim s).isEmpty then Except.error (badRequest (fieldName ++ " cannot be empty"))
    else Except.ok (some (jsTrim s))
  | _ => Except.error (badRequest (fieldName ++ " must be a string"))

/-- `validateRequiredStringWithMaxLength`. -/
def validateRequiredStringWithMaxLength (value : JSValue) (fieldName : String)
    (maxLength : Nat) : Except AppError String := do
  let validated ← validateRequiredString value fieldName
  if validated.length > maxLength then
    Except.error (badRequest
      (fieldName ++ " must be " ++ toString maxLength ++ " characters or fewer"))
  else
    Except.ok validated

/-- `validateOptionalStringWithMaxLength`. -/
def validateOptionalStringWithMaxLength (value : JSValue) (fieldName : String)
    (maxLength : Nat) : Except AppError (Option String) := do
  let validated ← validateOptionalString value fieldName
  match validated with
  | some s =>
    if s.length > maxLength then
      Except.error (badRequest
        (fieldName ++ " must be " ++ toString maxLength ++ " characters or fewer"))
    else
      Except.ok (some s)
  | none => Except.ok none

/-- `validateRequiredHtmlField`: must be a string of at most `maxLength`
characters; returned untrimmed. -/
def validateRequiredHtmlField (value : JSValue) (fieldName : String)
    (maxLength : Nat) : Except AppError String :=
  match value with
  | JSValue.str s =>
    if s.length > maxLength then
      Except.error (badRequest
        (fieldName ++ " must be " ++ toString maxLength ++ " characters or fewer"))
    else Except.ok s
  | _ => Except.error (badRequest (fieldName ++ " must be a string"))

/-- `validateOptionalHtmlField`. -/
def validateOptionalHtmlField (value : JSValue) (fieldName : String)
    (maxLength : Nat) : Except AppError (Option String) :=
  match value with
  | JSValue.undef => Except.ok none
  | v => (validateRequiredHtmlField v fieldName maxLength).map some

/-- The `MONTH_PATTERN` regex `^\d{4}-(0[1-9]|1[0-2])$` on a character list:
four digits, a dash, and a month `01`–`12`. -/
def isMonthChars : List Char → Bool
  | [y1, y2, y3, y4, d, m1, m2] =>
    y1.isDigit && y2.isDigit && y3.isDigit && y4.isDigit && d = '-' &&
      ((m1 = '0' && '1' ≤ m2 && m2 ≤ '9') ||
        (m1 = '1' && (m2 = '0' || m2 = '1' || m2 = '2')))
  | _ => false

/-- `MONTH_PATTERN.test(s)`. -/
def isMonthString (s : String) : Bool :=
  isMonthChars s.data

/-- Chronological index of a month given as seven pattern characters:
`12 * year + month`. Yields 0 on a non-matching shape. -/
def monthValChars : List Char → Nat
  | [y1, y2, y3, y4, _, m1, m2] =>
    12 * ((((y1.toNat - 48) * 10 + (y2.toNat - 48)) * 10 + (y3.toNat - 48)) * 10 + (y4.toNat - 48))
      + ((m1.toNat - 48) * 10 + (m2.toNat - 48))
  | _ => 0

/-- Chronological index of a `YYYY-MM` month string; "month `e` precedes
month `s`" means `monthVal e < monthVal s`. -/
def monthVal (s : String) : Nat :=
  monthValChars s.data

/-- `validateRequiredMonthString`: must be a string matching `MONTH_PATTERN`. -/
def validateRequiredMonthString (value : JSValue) (fieldName : String) :
    Except AppError String :=
  match value with
  | JSValue.str s =>
    if isMonthString s then Except.ok s
    else Except.error (badRequest (fieldName ++ " must use YYYY-MM format"))
  | _ => Except.error (badRequest (fieldName ++ " must use YYYY-MM format"))

/-- `validateOptionalMonthString`. -/
def validateOptionalMonthString (value : JSValue) (fieldName : String) :
    Except AppError (Option String) :=
  match value with
  | JSValue.undef => Except.ok none
  | v => (validateRequiredMonthString v fieldName).map some

/-- `validateExperienceChronology`: fails when the entry is marked current but
still has an end month, or when the end month is lexicographically earlier than
the start month (JS compares the `YYYY-MM` strings with `<`). -/
def validateExperienceChronology (startMonth : String) (endMonth : Option String)
    (isCurrent : Bool) : Except AppError Unit :=
  if isCurrent && strTruthy endMonth then
    Except.error (badRequest "endMonth must be null when isCurrent is true")
  else if strTruthy endMonth && jsStrLt (endMonth.getD "") startMonth then
    Except.error (badRequest "endMonth cannot be earlier than startMonth")
  else
    Except.ok ()

/-- The shared entry loop of `validateTags` / `validateHighlights` /
`validateTechTags`: every entry must be a string whose trimmed form is
non-empty and at most `maxLen` characters; trimmed entries are deduplicated by
lower-cased key, first occurrence kept. `seen` models the `Set<string>` and
`deduped` the output array built so far. -/
def dedupeEntriesLoop (fieldName : String) (maxLen : Nat) :
    List JSValue → List String → List String → Except AppError (List String)
  | [], _, deduped => Except.ok deduped
  | entry :: rest, seen, deduped =>
    match entry with
    | JSValue.str s =>
      let normalized := jsTrim s
      if normalized.isEmpty || normalized.length > maxLen then
        Except.error (badRequest
          (fieldName ++ " entries must be between 1 and " ++ toString maxLen ++ " characters"))
      else
        let dedupeKey := jsToLower normalized
        if seen.contains dedupeKey then
          dedupeEntriesLoop fieldName maxLen rest seen deduped
        else
          dedupeEntriesLoop fieldName maxLen rest (dedupeKey :: seen) (deduped ++ [normalized])
    | _ =>
      Except.error (badRequest (fieldName ++ " must contain only strings"))

/-- `validateTags`: array of strings, each 1–40 characters after trimming,
deduplicated case-insensitively preserving first-seen order. -/
def validateTags (value : JSValue) (fieldName : String := "tags") :
    Except AppError (List String) :=
  match value with
  | JSValue.arr xs => dedupeEntriesLoop fieldName 40 xs [] []
  | _ => Except.error (badRequest (fieldName ++ " must be an array of strings"))

/-- `validateOptionalTags`. -/
def validateOptionalTags (value : JSValue) (fieldName : String := "tags") :
    Except AppError (Option (List String)) :=
  match value with
  | JSValue.undef => Except.ok none
  | v => (validateTags v fieldName).map some

/-- `validateHighlights`: same loop as `validateTags` with a 200-character
per-entry bound. -/
def validateHighlights (value : JSValue) (fieldName : String := "highlights") :
    Except AppError (List String) :=
  match value with
  | JSValue.arr xs => dedupeEntriesLoop fieldName 200 xs [] []
  | _ => Except.error (badRequest (fieldName ++ " must be an array of strings"))

/-- `validateOptionalHighlights`. -/
def validateOptionalHighlights (value : JSValue) (fieldName : String := "highlights") :
    Except AppError (Option (List String)) :=
  match value with
  | JSValue.undef => Except.ok none
  | v => (validateHighlights v fieldName).map some

/-- `validateTechTags` delegates to `validateTags`. -/
def validateTechTags (value : JSValue) (fieldName : String := "techTags") :
    Except AppError (List String) :=
  validateTags value fieldName

/-- `validateOptionalTechTags`. -/
def validateOptionalTechTags (value : JSValue) (fieldName : String := "techTags") :
    Except AppError (Option (List String)) :=
  match value with
  | JSValue.undef => Except.ok none
  | v => (validateTechTags v fieldName).map some

/-! ## URL model and link validators -/

/-- Characters allowed after the first character of a URL scheme. -/
def isSchemeChar (c : Char) : Bool :=
  c.isAlphanum || c = '+' || c = '-' || c = '.'

/-- Split a character list at the first `':'` (`none` when there is none). -/
def splitColon : List Char → Option (List Char × List Char)
  | [] => none
  | c :: rest =>
    if c = ':' then some ([], rest)
    else
      match splitColon rest with
      | some p => some (c :: p.1, p.2)
      | none => none

/-- A valid URL scheme: a letter followed by letters, digits, `+`, `-`, `.`. -/
def validScheme (cs : List Char) : Bool :=
  match cs with
  | [] => false
  | c :: rest => c.isAlpha && rest.all isSchemeChar

/-- For the special `http`/`https` schemes the WHATWG parser requires a
non-empty host: after any leading (back)slashes, the authority component (up
to `/`, `?`, `#` or `\`) must be non-empty. -/
def authorityNonempty (cs : List Char) : Bool :=
  let afterSlashes := cs.dropWhile (fun c => c = '/' || c = '\\')
  let host := afterSlashes.takeWhile (fun c => !(c = '/' || c = '?' || c = '#' || c = '\\'))
  !host.isEmpty

/-- Model of `new URL(value).protocol`: `none` when the constructor throws,
otherwise the lower-cased scheme followed by `":"`. Surrounding whitespace is
stripped; non-special schemes accept any remainder, `http`/`https` require a
non-empty host. -/
def urlProtocol (value : String) : Option String :=
  match splitColon (jsTrim value).data with
  | none => none
  | some (schemeCs, rest) =>
    if validScheme schemeCs then
      let scheme := jsToLower (String.mk schemeCs)
      if scheme = "http" || scheme = "https" then
        if authorityNonempty rest then some (scheme ++ ":") else none
      else some (scheme ++ ":")
    else none

/-- The `URL_PROTOCOLS` set. -/
def URL_PROTOCOLS : List String := ["http:", "https:"]

/-- `isValidHttpUrl`: parses as a URL and the protocol is http/https. -/
def isValidHttpUrl (value : String) : Bool :=
  match urlProtocol value with
  | some protocol => URL_PROTOCOLS.contains protocol
  | none => false

/-- Extract the string payload of a `JSValue` (the TS code returns the input
array unchanged, declared as `string[]`). -/
def jsStrOrEmpty : JSValue → String
  | JSValue.str s => s
  | _ => ""

/-- `validateImageLinks`: every entry must be a string accepted by
`isValidHttpUrl`. The source computes `value.find(entry => bad entry)` and
throws only when the result `!== undefined`, so an offending entry that is
literally `undefined` is indistinguishable from the not-found sentinel and is
accepted — this is mirrored here by the `some JSValue.undef` branch. -/
def validateImageLinks (value : JSValue) (fieldName : String := "images") :
    Except AppError (List String) :=
  match value with
  | JSValue.arr xs =>
    let invalid := xs.find? (fun entry =>
      match entry with
      | JSValue.str s => !isValidHttpUrl s
      | _ => true)
    match invalid with
    | some JSValue.undef => Except.ok (xs.map jsStrOrEmpty)
    | some _ => Except.error (badRequest (fieldName ++ " must only contain valid http/https URLs"))
    | none => Except.ok (xs.map jsStrOrEmpty)
  | _ => Except.error (badRequest (fieldName ++ " must be an array of URLs"))

/-- `validateOptionalImageLinks`. -/
def validateOptionalImageLinks (value : JSValue) (fieldName : String := "images") :
    Except AppError (Option (List String)) :=
  match value with
  | JSValue.undef => Except.ok none
  | v => (validateImageLinks v fieldName).map some

/-- An external link `{label, url}`. -/
structure ExternalLink where
  label : String
  url : String
  deriving Repr, DecidableEq

/-- Entry loop of `validateExternalLinks`: each item must be a plain object
with a trimmed non-empty label of at most 40 characters and a valid http/https
URL; entries are deduplicated by lower-cased trimmed URL, first seen kept. -/
def externalLinksLoop (fieldName : String) :
    List JSValue → List String → List ExternalLink → Except AppError (List ExternalLink)
  | [], _, deduped => Except.ok deduped
  | item :: rest, seenUrls, deduped =>
    match item with
    | JSValue.obj fields =>
      match jsLookup fields "label" with
      | JSValue.str rawLabel =>
        if (jsTrim rawLabel).isEmpty then
          Except.error (badRequest (fieldName ++ ".label is required"))
        else
          let label := jsTrim rawLabel
          if label.length > 40 then
            Except.error (badRequest (fieldName ++ ".label must be 40 characters or fewer"))
          else
            match jsLookup fields "url" with
            | JSValue.str rawUrl =>
              if !isValidHttpUrl rawUrl then
                Except.error (badRequest (fieldName ++ ".url must be a valid http/https URL"))
              else
                let normalizedUrl := jsTrim rawUrl
                let dedupeKey := jsToLower normalizedUrl
                if seenUrls.contains dedupeKey then
                  externalLinksLoop fieldName rest seenUrls deduped
                else
                  externalLinksLoop fieldName rest (dedupeKey :: seenUrls)
                    (deduped ++ [{ label := label, url := normalizedUrl }])
            | _ => Except.error (badRequest (fieldName ++ ".url must be a valid http/https URL"))
      | _ => Except.error (badRequest (fieldName ++ ".label is required"))
    | _ => Except.error (badRequest (fieldName ++ " items must be objects"))

/-- `validateExternalLinks`. -/
def validateExternalLinks (value : JSValue) (fieldName : String := "links") :
    Except AppError (List ExternalLink) :=
  match value with
  | JSValue.arr xs => externalLinksLoop fieldName xs [] []
  | _ => Except.error (badRequest (fieldName ++ " must be an array"))

/-- `validateOptionalExternalLinks`. -/
def validateOptionalExternalLinks (value : JSValue) (fieldName : String := "links") :
    Except AppError (Option (List ExternalLink)) :=
  match value with
  | JSValue.undef => Except.ok none
  | v => (validateExternalLinks v fieldName).map some

/-! ## Pagination, search, patch-field guard, sort order -/

/-- JS `Number.isInteger`. -/
def JNum.isInteger : JNum → Bool
  | JNum.int _ => true
  | _ => false

/-- JS `n < k` for an integer bound (`NaN` comparisons are false; the code
only evaluates this after an `isInteger` check). -/
def JNum.ltInt : JNum → Int → Bool
  | JNum.int i, k => decide (i < k)
  | _, _ => false

/-- JS `n > k` for an integer bound. -/
def JNum.gtInt : JNum → Int → Bool
  | JNum.int i, k => decide (i > k)
  | _, _ => false

/-- The integer payload of a `JNum` (only read after `isInteger`). -/
def JNum.toInt : JNum → Int
  | JNum.int i => i
  | _ => 0

/-- The `{page, limit, skip}` record returned by `parsePagination`. -/
structure Pagination where
  page : Int
  limit : Int
  skip : Int
  deriving Repr, DecidableEq

/-- `parsePagination`: `page` defaults to 1 and must be an integer ≥ 1,
`limit` defaults to 10 and must be an integer in [1,100];
`skip = (page - 1) * limit`. -/
def parsePagination (query : List (String × JSValue)) : Except AppError Pagination :=
  let pageRaw := jsLookup query "page"
  let limitRaw := jsLookup query "limit"
  let page := if pageRaw.isUndef then JNum.int 1 else jsToNumber pageRaw
  let limit := if limitRaw.isUndef then JNum.int 10 else jsToNumber limitRaw
  if !page.isInteger || page.ltInt 1 then
    Except.error (badRequest "page must be an integer >= 1")
  else if !limit.isInteger || limit.ltInt 1 || limit.gtInt 100 then
    Except.error (badRequest "limit must be an integer between 1 and 100")
  else
    Except.ok { page := page.toInt, limit := limit.toInt, skip := (page.toInt - 1) * limit.toInt }

/-- `parseSearch`: `undefined` passes through, non-strings are rejected, a
string is trimmed and an empty result becomes `undefined`. -/
def parseSearch (value : JSValue) : Except AppError (Option String) :=
  match value with
  | JSValue.undef => Except.ok none
  | JSValue.str s =>
    let normalized := jsTrim s
    Except.ok (if normalized.isEmpty then none else some normalized)
  | _ => Except.error (badRequest "search must be a string")

/-- `requireAtLeastOneField`: at least one of the listed fields must be
present (not `undefined`) in the payload. -/
def requireAtLeastOneField (payload : List (String × JSValue)) (fields : List String) :
    Except AppError Unit :=
  if fields.any (fun f => !(jsLookup payload f).isUndef) then Except.ok ()
  else
    Except.error (badRequest
      ("At least one of these fields is required: " ++ String.intercalate ", " fields))

/-- `validateSortOrder` (experience controller): `Number(value)` must be an
integer in [0, 10000]. -/
def validateSortOrder (value : JSValue) (fieldName : String := "sortOrder") :
    Except AppError Int :=
  let parsed := jsToNumber value
  if !parsed.isInteger || parsed.ltInt 0 || parsed.gtInt 10000 then
    Except.error (badRequest (fieldName ++ " must be an integer between 0 and 10000"))
  else Except.ok parsed.toInt

/-! ## Experience controller (`experience.controller.ts`) -/

/-- `validateOptionalSortOrder`. -/
def validateOptionalSortOrder (value : JSValue) (fieldName : String := "sortOrder") :
    Except AppError (Option Int) :=
  match value with
  | JSValue.undef => Except.ok none
  | v => (validateSortOrder v fieldName).map some

/-- The persisted shape of an `Experience` row (generated id and timestamps
omitted). -/
structure Experience where
  company : String
  role : String
  employmentType : Option String
  location : Option String
  startMonth : String
  endMonth : Option String
  isCurrent : Bool
  summaryHtml : String
  highlights : List String
  techTags : List String
  links : List ExternalLink
  sortOrder : Int
  deriving Repr, DecidableEq

/-- `createExperience`: validates every field of the request body, runs the
chronology check, and returns the record handed to `prisma.experience.create`.
The HTML sanitizer is passed in as `sanitize`. -/
def createExperience (sanitize : String → String) (body : List (String × JSValue)) :
    Except AppError Experience := do
  let company ← validateRequiredStringWithMaxLength (jsLookup body "company") "company" 120
  let role ← validateRequiredStringWithMaxLength (jsLookup body "role") "role" 120
  let employmentType ←
    (if (jsLookup body "employmentType").isNull then pure none
     else validateOptionalStringWithMaxLength (jsLookup body "employmentType") "employmentType" 80)
  let location ←
    (if (jsLookup body "location").isNull then pure none
     else validateOptionalStringWithMaxLength (jsLookup body "location") "location" 120)
  let startMonth ← validateRequiredMonthString (jsLookup body "startMonth") "startMonth"
  let endMonth ←
    (if (jsLookup body "endMonth").isNull then pure none
     else validateOptionalMonthString (jsLookup body "endMonth") "endMonth")
  let isCurrent :=
    if (jsLookup body "isCurrent").isUndef then false else jsBoolean (jsLookup body "isCurrent")
  let summaryHtml ← validateRequiredHtmlField (jsLookup body "summaryHtml") "summaryHtml" 50000
  let highlights ← validateHighlights (jsNullish (jsLookup body "highlights") (JSValue.arr [])) "highlights"
  let techTags ← validateTechTags (jsNullish (jsLookup body "techTags") (JSValue.arr [])) "techTags"
  let links ← validateExternalLinks (jsNullish (jsLookup body "links") (JSValue.arr [])) "links"
  let sortOrder ←
    (if (jsLookup body "sortOrder").isUndef then pure 0
     else validateSortOrder (jsLookup body "sortOrder") "sortOrder")
  let _ ← validateExperienceChronology startMonth endMonth isCurrent
  pure {
    company := company
    role := role
    employmentType := employmentType
    location := location
    startMonth := startMonth
    endMonth := if isCurrent then none else endMonth
    isCurrent := isCurrent
    summaryHtml := sanitize summaryHtml
    highlights := highlights
    techTags := techTags
    links := links
    sortOrder := sortOrder }

/-- `updateExperience` on an existing record: validates supplied fields, merges
with the existing row for the chronology check, and returns the row as updated
by `prisma.experience.update` (each field written only when the corresponding
body field was present, mirroring the conditional spreads). Tri-state body
fields are modelled as `Option (Option _)`: `none` = absent, `some none` =
explicit `null`, `some (some v)` = value. -/
def updateExperience (sanitize : String → String) (existing : Experience)
    (body : List (String × JSValue)) : Except AppError Experience := do
  let _ ← requireAtLeastOneField body ["company", "role", "employmentType", "location",
    "startMonth", "endMonth", "isCurrent", "summaryHtml", "highlights", "techTags",
    "links", "sortOrder"]
  let company? ← validateOptionalStringWithMaxLength (jsLookup body "company") "company" 120
  let role? ← validateOptionalStringWithMaxLength (jsLookup body "role") "role" 120
  let employmentType? ←
    (if (jsLookup body "employmentType").isNull then pure (some none)
     else (validateOptionalStringWithMaxLength (jsLookup body "employmentType")
       "employmentType" 80).map (fun v => v.map some))
  let location? ←
    (if (jsLookup body "location").isNull then pure (some none)
     else (validateOptionalStringWithMaxLength (jsLookup body "location")
       "location" 120).map (fun v => v.map some))
  let startMonth? ← validateOptionalMonthString (jsLookup body "startMonth") "startMonth"
  let endMonth? ←
    (if (jsLookup body "endMonth").isNull then pure (some none)
     else (validateOptionalMonthString (jsLookup body "endMonth") "endMonth").map
       (fun v => v.map some))
  let isCurrent? :=
    if (jsLookup body "isCurrent").isUndef then none
    else some (jsBoolean (jsLookup body "isCurrent"))
  let summaryHtml? ← validateOptionalHtmlField (jsLookup body "summaryHtml") "summaryHtml" 50000
  let highlights? ← validateOptionalHighlights (jsLookup body "highlights") "highlights"
  let techTags? ← validateOptionalTechTags (jsLookup body "techTags") "techTags"
  let links? ← validateOptionalExternalLinks (jsLookup body "links") "links"
  let sortOrder? ← validateOptionalSortOrder (jsLookup body "sortOrder") "sortOrder"
  let nextStartMonth := startMonth?.getD existing.startMonth
  let nextIsCurrent := isCurrent?.getD existing.isCurrent
  let nextEndMonth :=
    if nextIsCurrent then none
    else
      match endMonth? with
      | some (some s) => some s
      | _ => existing.endMonth
  let _ ← validateExperienceChronology nextStartMonth nextEndMonth nextIsCurrent
  pure {
    company := company?.getD existing.company
    role := role?.getD existing.role
    employmentType := employmentType?.getD existing.employmentType
    location := location?.getD existing.location
    startMonth := startMonth?.getD existing.startMonth
    endMonth := if !(jsLookup body "endMonth").isUndef then nextEndMonth else existing.endMonth
    isCurrent := isCurrent?.getD existing.isCurrent
    summaryHtml := (summaryHtml?.map sanitize).getD existing.summaryHtml
    highlights := highlights?.getD existing.highlights
    techTags := techTags?.getD existing.techTags
    links := links?.getD existing.links
    sortOrder := sortOrder?.getD existing.sortOrder }

/-! ## Category delete (`category.controller.ts`) -/

/-- A category row as observed by `deleteCategory`: its id and its dependent
blog count (`_count.blogs`). -/
structure CategoryRec where
  id : String
  blogCount : Nat
  deriving Repr, DecidableEq

/-- `prisma.category.findUnique({where:{id}})`. -/
def findCategory (cats : List CategoryRec) (id : String) : Option CategoryRec :=
  cats.find? (fun c => c.id = id)

/-- `deleteCategory`: 404 when absent, 409 when dependent blogs exist (the
delete is not reached and the table is returned unchanged), otherwise the row
is deleted and 204 returned. The second component is the category table after
the request. -/
def deleteCategory (cats : List CategoryRec) (id : String) :
    Except AppError Nat × List CategoryRec :=
  match findCategory cats id with
  | none =>
    (Except.error { statusCode := 404, code := "NOT_FOUND", message := "Category not found" }, cats)
  | some category =>
    if category.blogCount > 0 then
      (Except.error ⟨409, "CONFLICT", "Cannot delete category with existing blogs", none⟩, cats)
    else
      (Except.ok 204, cats.filter (fun c => c.id != id))

/-! ## Upload route (`upload.controller.ts` and the multer middleware) -/

def MAX_FILES : Nat := 10

def MAX_FILE_SIZE_BYTES : Nat := 5 * 1024 * 1024

def ALLOWED_MIME_TYPES : List String := ["image/jpeg", "image/png", "image/webp", "image/gif"]

def ALLOWED_FOLDERS : List String := ["projects", "blogs"]

/-- An uploaded file as observed by the controller: name, mime type, reported
size and buffer length (the byte contents are never inspected). -/
structure UploadFile where
  originalname : String
  mimetype : String
  size : Nat
  bufferLen : Nat
  deriving Repr, DecidableEq

/-- Reply of one storage `upload` + `getPublicUrl` round trip: an upload error
message, or a public URL (`none` models a missing `publicUrl`). -/
inductive StorageReply where
  | uploadError (message : String)
  | publicUrl (url : Option String)

/-- `parseUploadFolder`: a required string that must be `projects` or `blogs`. -/
def parseUploadFolder (value : JSValue) : Except AppError String := do
  let folder ← validateRequiredString value "folder"
  if !ALLOWED_FOLDERS.contains folder then
    Except.error (badRequest "folder must be either projects or blogs")
  else Except.ok folder

/-- Outcome of an upload request: the response and how many storage upload
calls were made while producing it. -/
structure UploadOutcome where
  response : Except AppError (List String)
  storageCalls : Nat

/-- The per-file loop of `uploadImages`: empty-buffer and size checks, then
one storage call per file (the object-path construction is not observed by
any property here and is omitted); `storage` is indexed by call number. -/
def uploadLoop (storage : Nat → StorageReply) :
    List UploadFile → Nat → List String → UploadOutcome
  | [], calls, links => ⟨Except.ok links, calls⟩
  | f :: rest, calls, links =>
    if f.bufferLen = 0 then ⟨Except.error (badRequest "Uploaded file is empty"), calls⟩
    else if f.size > MAX_FILE_SIZE_BYTES then
      ⟨Except.error (badRequest "Each image must be 5MB or smaller"), calls⟩
    else
      match storage calls with
      | StorageReply.uploadError m =>
        ⟨Except.error ⟨500, "INTERNAL_ERROR", "Failed to upload image", some m⟩, calls + 1⟩
      | StorageReply.publicUrl none =>
        ⟨Except.error ⟨500, "INTERNAL_ERROR", "Failed to resolve uploaded image URL", none⟩, calls + 1⟩
      | StorageReply.publicUrl (some url) =>
        uploadLoop storage rest (calls + 1) (links ++ [url])

/-- `uploadImages`: folder check, then the 1–10 file-count check, then the
per-file storage loop. -/
def uploadImages (storage : Nat → StorageReply) (folderVal : JSValue)
    (files : List UploadFile) : UploadOutcome :=
  match parseUploadFolder folderVal with
  | Except.error e => ⟨Except.error e, 0⟩
  | Except.ok _ =>
    if files.length < 1 || files.length > MAX_FILES then
      ⟨Except.error (badRequest "Upload between 1 and 10 images"), 0⟩
    else uploadLoop storage files 0 []

/-- Model of the multer middleware (`upload.array("files", MAX_FILES)` plus
the error mapping in `uploadMiddleware`): files are processed in order; the
mime filter and per-file size limit reject a file as it streams, and the
eleventh file triggers `LIMIT_FILE_COUNT`. Returns the `AppError` handed to
`next`, or `none` when the request reaches the controller. -/
def multerScan : List UploadFile → Nat → Option AppError
  | [], _ => none
  | f :: rest, idx =>
    if idx ≥ MAX_FILES then some (badRequest "You can upload up to 10 images at once")
    else if !ALLOWED_MIME_TYPES.contains f.mimetype then
      some (badRequest "Only JPG, PNG, WEBP, and GIF are allowed")
    else if f.size > MAX_FILE_SIZE_BYTES then
      some (badRequest "Each image must be 5MB or smaller")
    else multerScan rest (idx + 1)

/-- The `POST /api/uploads` pipeline after auth: multer middleware, then the
controller. A middleware rejection makes no storage call. -/
def uploadRoute (storage : Nat → StorageReply) (folderVal : JSValue)
    (files : List UploadFile) : UploadOutcome :=
  match multerScan files 0 with
  | some e => ⟨Except.error e, 0⟩
  | none => uploadImages storage folderVal files

/-! ## Auth middleware (`middleware/auth.ts`) -/

/-- The `{userId, email}` identity attached to the request context. -/
structure AuthPayload where
  userId : String
  email : String
  deriving Repr, DecidableEq

/-- `requireAuth`: rejects with 401 when the `Authorization` header is absent
or falsy, does not start with `"Bearer "`, carries an empty token after the
prefix, or the token fails verification (`verify` models
`verifyAccessToken`, `none` = the verifier threw); otherwise returns the
payload attached to `req.auth`. -/
def requireAuth (verify : String → Option AuthPayload) (authHeader : Option String) :
    Except AppError AuthPayload :=
  let missing : AppError :=
    { statusCode := 401, code := "UNAUTHORIZED", message := "Missing or invalid Authorization header" }
  match authHeader with
  | none => Except.error missing
  | some h =>
    if h.isEmpty || !jsStartsWith h "Bearer " then Except.error missing
    else
      let token := jsTrim (jsDrop h 7)
      if token.isEmpty then
        Except.error { statusCode := 401, code := "UNAUTHORIZED", message := "Missing access token" }
      else
        match verify token with
        | some payload => Except.ok payload
        | none =>
          Except.error { statusCode := 401, code := "UNAUTHORIZED", message := "Invalid or expired token" }

/-! ## Terminal error handler (`middleware/error.ts`) -/

/-- The error caught by the terminal handler: an `AppError`, a known Prisma
request error (its `code` and `meta`), a body-parser error whose `type` is
`"entity.too.large"`, or anything else (`message` is `none` when the thrown
value was not an `Error` instance). -/
inductive CaughtError where
  | appError (e : AppError)
  | prismaKnown (code : String) (meta : Option String)
  | tooLarge
  | other (message : Option String)
  deriving Repr

/-- The JSON error envelope `{status, error:{code, message, details}}`. -/
structure ErrorResponse where
  status : Nat
  code : String
  message : String
  details : Option String
  deriving Repr, DecidableEq

/-- `normalizePrismaError`: P2002 → 409 CONFLICT, P2003 → 400 BAD_REQUEST,
P2025 → 404 NOT_FOUND, anything else → 500 INTERNAL_ERROR. -/
def normalizePrismaError (code : String) (meta : Option String) : AppError :=
  if code = "P2002" then
    { statusCode := 409, code := "CONFLICT", message := "Resource already exists", details := meta }
  else if code = "P2003" then
    { statusCode := 400, code := "BAD_REQUEST", message := "Invalid relation reference", details := meta }
  else if code = "P2025" then
    { statusCode := 404, code := "NOT_FOUND", message := "Resource not found", details := meta }
  else
    { statusCode := 500, code := "INTERNAL_ERROR", message := "Database request failed", details := meta }

/-- `errorHandler`: the single terminal handler producing the error envelope. -/
def errorHandler (nodeEnv : String) : CaughtError → ErrorResponse
  | CaughtError.tooLarge =>
    { status := 400, code := "BAD_REQUEST",
      message := "Upload payload too large. Max 10 images, 5MB each.", details := none }
  | CaughtError.appError e =>
    { status := e.statusCode, code := e.code, message := e.message, details := e.details }
  | CaughtError.prismaKnown code meta =>
    let n := normalizePrismaError code meta
    { status := n.statusCode, code := n.code, message := n.message, details := n.details }
  | CaughtError.other msg =>
    { status := 500, code := "INTERNAL_ERROR", message := "Internal server error",
      details := if nodeEnv = "production" then none else some (msg.getD "Unknown error") }

/-! ## List endpoints (`listProjects`, `listBlogs`) -/

/-- The `meta` object of a list response. -/
structure ListResponseMeta where
  page : Int
  limit : Int
  total : Nat
  totalPages : Nat
  deriving Repr, DecidableEq

/-- `Math.ceil(total / limit) || 1` for a row count and the positive limit
produced by `parsePagination` (number arithmetic modelled exactly). -/
def jsTotalPages (total : Nat) (limit : Int) : Nat :=
  let c := (total + limit.toNat - 1) / limit.toNat
  if c = 0 then 1 else c

/-- `listProjects` as observed through its response `meta`; `total` is the
count returned by the data store. -/
def listProjects (query : List (String × JSValue)) (total : Nat) :
    Except AppError ListResponseMeta := do
  let p ← parsePagination query
  let _ ← parseSearch (jsLookup query "search")
  pure { page := p.page, limit := p.limit, total := total, totalPages := jsTotalPages total p.limit }

/-- `listBlogs` as observed through its response `meta`. -/
def listBlogs (query : List (String × JSValue)) (total : Nat) :
    Except AppError ListResponseMeta := do
  let p ← parsePagination query
  let _ ← parseSearch (jsLookup query "search")
  let _ ←
    (if (jsLookup query "categoryId").isUndef then pure none
     else (validateRequiredString (jsLookup query "categoryId") "categoryId").map some)
  pure { page := p.page, limit := p.limit, total := total, totalPages := jsTotalPages total p.limit }

/-! ## Spec-side definitions used to state the claims -/

/-- An entry rejected by the tag/highlight validators: not a string, or empty
after trimming, or longer than `maxLen` after trimming. -/
def isBadEntry (maxLen : Nat) : JSValue → Bool
  | JSValue.str s => (jsTrim s).isEmpty || (jsTrim s).length > maxLen
  | _ => true

/-- Case-insensitive first-seen deduplication, as the spec describes the
output of the tag/highlight validators (`seen` holds lower-cased keys). -/
def dedupCaseInsensitiveAux : List String → List String → List String
  | [], _ => []
  | s :: rest, seen =>
    if seen.contains (jsToLower s) then dedupCaseInsensitiveAux rest seen
    else s :: dedupCaseInsensitiveAux rest (jsToLower s :: seen)

/-- Case-insensitive first-seen deduplication of a string list. -/
def dedupCaseInsensitive (xs : List String) : List String :=
  dedupCaseInsensitiveAux xs []

/-- The trimmed string payload of an entry (entries are all strings whenever
this is applied). -/
def trimmedStr : JSValue → String
  | JSValue.str s => jsTrim s
  | _ => ""

/-- The effective page number `parsePagination` works with: the default `1`
when `page` is omitted, otherwise `Number(query.page)`. -/
def effPageNum (query : List (String × JSValue)) : JNum :=
  if (jsLookup query "page").isUndef then JNum.int 1 else jsToNumber (jsLookup query "page")

/-- The effective limit number `parsePagination` works with: the default `10`
when `limit` is omitted, otherwise `Number(query.limit)`. -/
def effLimitNum (query : List (String × JSValue)) : JNum :=
  if (jsLookup query "limit").isUndef then JNum.int 10 else jsToNumber (jsLookup query "limit")

/-- A stored experience row used to exhibit the update bug: not current, with
a non-null end month. -/
def exRecC1 : Experience :=
  { company := "Acme", role := "Engineer", employmentType := none, location := none,
    startMonth := "2020-01", endMonth := some "2020-06", isCurrent := false,
    summaryHtml := "<p>x</p>", highlights := [], techTags := [], links := [], sortOrder := 0 }

/-- A concrete create body marking the experience as current. -/
def cBodyC1 : List (String × JSValue) :=
  [("company", JSValue.str "Acme"), ("role", JSValue.str "Engineer"),
   ("startMonth", JSValue.str "2023-01"), ("isCurrent", JSValue.bool true),
   ("summaryHtml", JSValue.str "<p>x</p>")]

/-! ## Order theory: string comparison of `YYYY-MM` strings is chronological -/

theorem char_lt_iff_toNat (a b : Char) : a < b ↔ a.toNat < b.toNat := Iff.rfl

theorem char_le_iff_toNat (a b : Char) : a ≤ b ↔ a.toNat ≤ b.toNat := Iff.rfl

theorem char_toNat_inj (a b : Char) : a = b ↔ a.toNat = b.toNat := by
  constructor
  · intro h; rw [h]
  · intro h
    exact Char.ext (UInt32.ext h)

theorem isDigit_bounds {c : Char} (h : c.isDigit = true) : 48 ≤ c.toNat ∧ c.toNat ≤ 57 := by
  simp [Char.isDigit] at h
  exact h

theorem charList_lex_cons_iff (a b : Char) (as bs : List Char) :
    List.Lex (· < ·) (a :: as) (b :: bs) ↔ a < b ∨ (a = b ∧ List.Lex (· < ·) as bs) := by
  constructor
  · intro h
    cases h with
    | cons h => exact Or.inr ⟨rfl, h⟩
    | rel h => exact Or.inl h
  · rintro (h | ⟨rfl, h⟩)
    · exact List.Lex.rel h
    · exact List.Lex.cons h

theorem charList_lex_nil_nil : List.Lex (· < ·) ([] : List Char) [] ↔ False := by
  constructor
  · intro h; cases h
  · exact False.elim

theorem month_chars_lt_iff {la lb : List Char}
    (ha : isMonthChars la = true) (hb : isMonthChars lb = true) :
    List.Lex (· < ·) la lb ↔ monthValChars la < monthValChars lb := by
  rcases la with _ | ⟨a1, _ | ⟨a2, _ | ⟨a3, _ | ⟨a4, _ | ⟨a5, _ | ⟨a6, _ | ⟨a7, _ | ⟨a8, ta⟩⟩⟩⟩⟩⟩⟩⟩ <;>
    simp only [isMonthChars, Bool.and_eq_true, Bool.or_eq_true, decide_eq_true_eq,
      Bool.false_eq_true] at ha
  rcases lb with _ | ⟨b1, _ | ⟨b2, _ | ⟨b3, _ | ⟨b4, _ | ⟨b5, _ | ⟨b6, _ | ⟨b7, _ | ⟨b8, tb⟩⟩⟩⟩⟩⟩⟩⟩ <;>
    simp only [isMonthChars, Bool.and_eq_true, Bool.or_eq_true, decide_eq_true_eq,
      Bool.false_eq_true] at hb
  obtain ⟨⟨⟨⟨⟨ha1, ha2⟩, ha3⟩, ha4⟩, hadash⟩, hamon⟩ := ha
  obtain ⟨⟨⟨⟨⟨hb1, hb2⟩, hb3⟩, hb4⟩, hbdash⟩, hbmon⟩ := hb
  subst hadash
  subst hbdash
  have da1 := isDigit_bounds ha1
  have da2 := isDigit_bounds ha2
  have da3 := isDigit_bounds ha3
  have da4 := isDigit_bounds ha4
  have db1 := isDigit_bounds hb1
  have db2 := isDigit_bounds hb2
  have db3 := isDigit_bounds hb3
  have db4 := isDigit_bounds hb4
  have hmonA : (a6.toNat = 48 ∧ 49 ≤ a7.toNat ∧ a7.toNat ≤ 57) ∨
      (a6.toNat = 49 ∧ (a7.toNat = 48 ∨ a7.toNat = 49 ∨ a7.toNat = 50)) := by
    rcases hamon with ⟨⟨h6, h7a⟩, h7b⟩ | ⟨h6, h7⟩
    · exact Or.inl ⟨by subst h6; rfl, by rw [char_le_iff_toNat] at h7a; exact h7a,
        by rw [char_le_iff_toNat] at h7b; exact h7b⟩
    · refine Or.inr ⟨by subst h6; rfl, ?_⟩
      rcases h7 with (h | h) | h
      · exact Or.inl (by subst h; rfl)
      · exact Or.inr (Or.inl (by subst h; rfl))
      · exact Or.inr (Or.inr (by subst h; rfl))
  have hmonB : (b6.toNat = 48 ∧ 49 ≤ b7.toNat ∧ b7.toNat ≤ 57) ∨
      (b6.toNat = 49 ∧ (b7.toNat = 48 ∨ b7.toNat = 49 ∨ b7.toNat = 50)) := by
    rcases hbmon with ⟨⟨h6, h7a⟩, h7b⟩ | ⟨h6, h7⟩
    · exact Or.inl ⟨by subst h6; rfl, by rw [char_le_iff_toNat] at h7a; exact h7a,
        by rw [char_le_iff_toNat] at h7b; exact h7b⟩
    · refine Or.inr ⟨by subst h6; rfl, ?_⟩
      rcases h7 with (h | h) | h
      · exact Or.inl (by subst h; rfl)
      · exact Or.inr (Or.inl (by subst h; rfl))
      · exact Or.inr (Or.inr (by subst h; rfl))
  simp only [charList_lex_cons_iff, charList_lex_nil_nil]
  simp only [char_lt_iff_toNat, char_toNat_inj, monthValChars, lt_self_iff_false, true_and,
    and_false, or_false, false_or]
  omega

theorem jsStrLtChars_iff_lex (as : List Char) :
    ∀ bs, jsStrLtChars as bs = true ↔ List.Lex (· < ·) as bs := by
  induction as with
  | nil =>
    intro bs
    cases bs with
    | nil =>
      constructor
      · intro h; simp [jsStrLtChars] at h
      · intro h; cases h
    | cons b bs =>
      constructor
      · intro _; exact List.Lex.nil
      · intro _; rfl
  | cons a as ih =>
    intro bs
    cases bs with
    | nil =>
      constructor
      · intro h; simp [jsStrLtChars] at h
      · intro h; cases h
    | cons b bs =>
      rw [charList_lex_cons_iff, show jsStrLtChars (a :: as) (b :: bs) =
        (if a < b then true else if b < a then false else jsStrLtChars as bs) from rfl]
      by_cases hab : a < b
      · simp [hab]
      · rw [if_neg hab]
        by_cases hba : b < a
        · rw [if_pos hba]
          constructor
          · intro h; exact absurd h (by simp)
          · rintro (h | ⟨rfl, h⟩)
            · exact absurd h hab
            · exact absurd hba (lt_irrefl a)
        · rw [if_neg hba]
          have heq : a = b := le_antisymm (not_lt.mp hba) (not_lt.mp hab)
          rw [ih bs]
          constructor
          · intro h; exact Or.inr ⟨heq, h⟩
          · rintro (h | ⟨_, h⟩)
            · exact absurd h hab
            · exact h

theorem month_lt_iff {a b : String} (ha : isMonthString a = true) (hb : isMonthString b = true) :
    jsStrLt a b = true ↔ monthVal a < monthVal b := by
  rw [jsStrLt, jsStrLtChars_iff_lex]
  exact month_chars_lt_iff ha hb

theorem month_ne_empty {x : String} (h : isMonthString x = true) : x.isEmpty = false := by
  rw [Bool.eq_false_iff]
  intro hemp
  have hx : x = "" := (String.isEmpty_iff x).mp hemp
  subst hx
  simp [isMonthString, isMonthChars] at h

/-! ## C2: chronology check -/

/-- C2: for all `startMonth` in valid `YYYY-MM` format and `endMonth` null or
in valid `YYYY-MM` format, `validateExperienceChronology` throws a BAD_REQUEST
error if and only if (`isCurrent` is true and the end month is non-null) or
(the end month is non-null and chronologically precedes the start month);
otherwise it returns normally. -/
theorem validateExperienceChronology_spec (s : String) (e : Option String) (isCurrent : Bool)
    (hs : isMonthString s = true) (he : ∀ x, e = some x → isMonthString x = true) :
    (∃ err, validateExperienceChronology s e isCurrent = Except.error err ∧
        err.statusCode = 400 ∧ err.code = "BAD_REQUEST") ↔
      ((isCurrent = true ∧ e ≠ none) ∨ ∃ x, e = some x ∧ monthVal x < monthVal s) := by
  cases e with
  | none =>
    simp [validateExperienceChronology, strTruthy]
  | some x =>
    have hx : isMonthString x = true := he x rfl
    have hne : x.isEmpty = false := month_ne_empty hx
    cases isCurrent with
    | true =>
      constructor
      · intro _
        exact Or.inl ⟨rfl, by simp⟩
      · intro _
        refine ⟨badRequest "endMonth must be null when isCurrent is true", ?_, rfl, rfl⟩
        simp [validateExperienceChronology, strTruthy, hne]
    | false =>
      by_cases hlt : jsStrLt x s = true
      · have hm : monthVal x < monthVal s := (month_lt_iff hx hs).mp hlt
        constructor
        · intro _
          exact Or.inr ⟨x, rfl, hm⟩
        · intro _
          refine ⟨badRequest "endMonth cannot be earlier than startMonth", ?_, rfl, rfl⟩
          simp [validateExperienceChronology, strTruthy, hne, hlt]
      · have hm : ¬ monthVal x < monthVal s := fun h => hlt ((month_lt_iff hx hs).mpr h)
        have hlt' : jsStrLt x s = false := Bool.eq_false_iff.mpr hlt
        constructor
        · rintro ⟨err, heq, _, _⟩
          exfalso
          revert heq
          simp [validateExperienceChronology, strTruthy, hne, hlt']
        · rintro (⟨hc, _⟩ | ⟨x', hx', hm'⟩)
          · exact absurd hc (by simp)
          · cases hx'
            exact absurd hm' hm

/-- C2 witness: `start=2024-05, end=2023-01, isCurrent=false` is rejected with
a BAD_REQUEST error. -/
theorem validateExperienceChronology_spec_witness :
    ∃ err, validateExperienceChronology "2024-05" (some "2023-01") false = Except.error err ∧
      err.statusCode = 400 ∧ err.code = "BAD_REQUEST" :=
  (validateExperienceChronology_spec "2024-05" (some "2023-01") false (by decide)
      (fun x hx => by cases hx; decide)).mpr
    (Or.inr ⟨"2023-01", rfl, by decide⟩)

/-! ## C3: tag / highlight validation -/

theorem dedupeEntriesLoop_ok (fieldName : String) (maxLen : Nat) (xs : List JSValue)
    (seen acc : List String) (h : ∀ v ∈ xs, isBadEntry maxLen v = false) :
    dedupeEntriesLoop fieldName maxLen xs seen acc =
      Except.ok (acc ++ dedupCaseInsensitiveAux (xs.map trimmedStr) seen) := by
  induction xs generalizing seen acc with
  | nil => simp [dedupeEntriesLoop, dedupCaseInsensitiveAux]
  | cons v rest ih =>
    have hv := h v (List.mem_cons_self v rest)
    have hrest : ∀ w ∈ rest, isBadEntry maxLen w = false :=
      fun w hw => h w (List.mem_cons_of_mem v hw)
    match v with
    | JSValue.str s =>
      simp only [isBadEntry, Bool.or_eq_false_iff] at hv
      obtain ⟨hv1, hv2⟩ := hv
      simp only [dedupeEntriesLoop, List.map, trimmedStr, dedupCaseInsensitiveAux, hv1, hv2,
        Bool.false_or, Bool.or_self, if_neg]
      rw [if_neg (by simp [hv1, hv2])]
      by_cases hseen : seen.contains (jsToLower (jsTrim s)) = true
      · rw [if_pos hseen, if_pos hseen, ih _ _ hrest]
      · rw [if_neg hseen, if_neg hseen, ih _ _ hrest]
        simp
    | JSValue.undef => simp [isBadEntry] at hv
    | JSValue.null => simp [isBadEntry] at hv
    | JSValue.bool b => simp [isBadEntry] at hv
    | JSValue.num n => simp [isBadEntry] at hv
    | JSValue.arr ys => simp [isBadEntry] at hv
    | JSValue.obj fs => simp [isBadEntry] at hv

theorem dedupeEntriesLoop_error (fieldName : String) (maxLen : Nat) (xs : List JSValue)
    (seen acc : List String) (h : ∃ v ∈ xs, isBadEntry maxLen v = true) :
    ∃ err, dedupeEntriesLoop fieldName maxLen xs seen acc = Except.error err ∧
      err.statusCode = 400 ∧ err.code = "BAD_REQUEST" := by
  induction xs generalizing seen acc with
  | nil => simp at h
  | cons v rest ih =>
    match v with
    | JSValue.str s =>
      by_cases hbad : (jsTrim s).isEmpty || (jsTrim s).length > maxLen
      · refine ⟨badRequest (fieldName ++ " entries must be between 1 and " ++
          toString maxLen ++ " characters"), ?_, rfl, rfl⟩
        simp only [dedupeEntriesLoop]
        rw [if_pos hbad]
      · have hrest : ∃ w ∈ rest, isBadEntry maxLen w = true := by
          rcases h with ⟨w, hw, hwbad⟩
          rcases List.mem_cons.mp hw with rfl | hw'
          · exact absurd hwbad (by simp only [isBadEntry]; simpa using hbad)
          · exact ⟨w, hw', hwbad⟩
        simp only [dedupeEntriesLoop]
        rw [if_neg hbad]
        by_cases hseen : seen.contains (jsToLower (jsTrim s)) = true
        · rw [if_pos hseen]; exact ih _ _ hrest
        · rw [if_neg hseen]; exact ih _ _ hrest
    | JSValue.undef =>
      exact ⟨badRequest (fieldName ++ " must contain only strings"), rfl, rfl, rfl⟩
    | JSValue.null =>
      exact ⟨badRequest (fieldName ++ " must contain only strings"), rfl, rfl, rfl⟩
    | JSValue.bool b =>
      exact ⟨badRequest (fieldName ++ " must contain only strings"), rfl, rfl, rfl⟩
    | JSValue.num n =>
      exact ⟨badRequest (fieldName ++ " must contain only strings"), rfl, rfl, rfl⟩
    | JSValue.arr ys =>
      exact ⟨badRequest (fieldName ++ " must contain only strings"), rfl, rfl, rfl⟩
    | JSValue.obj fs =>
      exact ⟨badRequest (fieldName ++ " must contain only strings"), rfl, rfl, rfl⟩

/-- C3: `validateTags` (and `validateHighlights`, with bound 200 instead of
40) throws BAD_REQUEST iff some entry is not a string, is empty after
trimming, or exceeds the per-entry bound after trimming; otherwise it returns
the trimmed entries deduplicated case-insensitively, first-seen order
preserved. In particular `["Swift","swift"]` yields `["Swift"]` and
`["", "x".repeat(41)]` is rejected. -/
theorem validateTags_spec :
    (∀ xs : List JSValue,
      ((∃ err, validateTags (JSValue.arr xs) "tags" = Except.error err ∧
          err.statusCode = 400 ∧ err.code = "BAD_REQUEST") ↔
        ∃ v ∈ xs, isBadEntry 40 v = true) ∧
      ((∀ v ∈ xs, isBadEntry 40 v = false) →
        validateTags (JSValue.arr xs) "tags" =
          Except.ok (dedupCaseInsensitive (xs.map trimmedStr)))) ∧
    (∀ xs : List JSValue,
      ((∃ err, validateHighlights (JSValue.arr xs) "highlights" = Except.error err ∧
          err.statusCode = 400 ∧ err.code = "BAD_REQUEST") ↔
        ∃ v ∈ xs, isBadEntry 200 v = true) ∧
      ((∀ v ∈ xs, isBadEntry 200 v = false) →
        validateHighlights (JSValue.arr xs) "highlights" =
          Except.ok (dedupCaseInsensitive (xs.map trimmedStr)))) ∧
    validateTags (JSValue.arr [JSValue.str "Swift", JSValue.str "swift"]) "tags" =
      Except.ok ["Swift"] ∧
    (∃ err,
      validateTags (JSValue.arr [JSValue.str "",
          JSValue.str (String.mk (List.replicate 41 'x'))]) "tags" =
        Except.error err ∧ err.statusCode = 400 ∧ err.code = "BAD_REQUEST") := by
  refine ⟨fun xs => ⟨?_, ?_⟩, fun xs => ⟨?_, ?_⟩, rfl,
    ⟨badRequest "tags entries must be between 1 and 40 characters", rfl, rfl, rfl⟩⟩
  · constructor
    · intro herr
      by_contra hno
      push_neg at hno
      have hall : ∀ v ∈ xs, isBadEntry 40 v = false := by
        intro v hv
        cases hfv : isBadEntry 40 v
        · rfl
        · exact absurd hfv (hno v hv)
      have := dedupeEntriesLoop_ok "tags" 40 xs [] [] hall
      rcases herr with ⟨err, herr, _⟩
      rw [show validateTags (JSValue.arr xs) "tags" =
        dedupeEntriesLoop "tags" 40 xs [] [] from rfl, this] at herr
      exact Except.noConfusion herr
    · intro hbad
      exact dedupeEntriesLoop_error "tags" 40 xs [] [] hbad
  · intro hall
    exact dedupeEntriesLoop_ok "tags" 40 xs [] [] hall
  · constructor
    · intro herr
      by_contra hno
      push_neg at hno
      have hall : ∀ v ∈ xs, isBadEntry 200 v = false := by
        intro v hv
        cases hfv : isBadEntry 200 v
        · rfl
        · exact absurd hfv (hno v hv)
      have := dedupeEntriesLoop_ok "highlights" 200 xs [] [] hall
      rcases herr with ⟨err, herr, _⟩
      rw [show validateHighlights (JSValue.arr xs) "highlights" =
        dedupeEntriesLoop "highlights" 200 xs [] [] from rfl, this] at herr
      exact Except.noConfusion herr
    · intro hbad
      exact dedupeEntriesLoop_error "highlights" 200 xs [] [] hbad
  · intro hall
    exact dedupeEntriesLoop_ok "highlights" 200 xs [] [] hall

/-- C3 witness: instantiating the general statement on a concrete list with a
discharged no-bad-entry hypothesis. -/
theorem validateTags_spec_witness :
    validateTags (JSValue.arr [JSValue.str " Go ", JSValue.str "go"]) "tags" =
      Except.ok (dedupCaseInsensitive
        (List.map trimmedStr [JSValue.str " Go ", JSValue.str "go"])) :=
  (validateTags_spec.1 [JSValue.str " Go ", JSValue.str "go"]).2 (by decide)

/-! ## C4: pagination parsing -/

theorem parsePagination_eq (query : List (String × JSValue)) :
    parsePagination query =
      (if !(effPageNum query).isInteger || (effPageNum query).ltInt 1 then
         Except.error (badRequest "page must be an integer >= 1")
       else if !(effLimitNum query).isInteger || (effLimitNum query).ltInt 1 ||
           (effLimitNum query).gtInt 100 then
         Except.error (badRequest "limit must be an integer between 1 and 100")
       else
         Except.ok { page := (effPageNum query).toInt, limit := (effLimitNum query).toInt,
                     skip := ((effPageNum query).toInt - 1) * (effLimitNum query).toInt }) := rfl

/-- C4: `parsePagination` defaults `page` to 1 and `limit` to 10 when omitted;
it throws BAD_REQUEST exactly when the effective page is not an integer ≥ 1 or
the effective limit is not an integer in [1,100]; on success
`skip = (page-1)*limit`. `page=0` and `limit=101` both throw. -/
theorem parsePagination_spec :
    (∀ query r, parsePagination query = Except.ok r →
      r.skip = (r.page - 1) * r.limit ∧ effPageNum query = JNum.int r.page ∧
        effLimitNum query = JNum.int r.limit ∧ 1 ≤ r.page ∧ 1 ≤ r.limit ∧ r.limit ≤ 100) ∧
    (∀ query,
      (∃ err, parsePagination query = Except.error err ∧
          err.statusCode = 400 ∧ err.code = "BAD_REQUEST") ↔
        ¬ ∃ p l : Int, effPageNum query = JNum.int p ∧ effLimitNum query = JNum.int l ∧
            1 ≤ p ∧ 1 ≤ l ∧ l ≤ 100) ∧
    parsePagination [] = Except.ok ⟨1, 10, 0⟩ ∧
    (∃ err, parsePagination [("page", JSValue.str "0")] = Except.error err ∧
      err.statusCode = 400 ∧ err.code = "BAD_REQUEST") ∧
    (∃ err, parsePagination [("limit", JSValue.str "101")] = Except.error err ∧
      err.statusCode = 400 ∧ err.code = "BAD_REQUEST") := by
  refine ⟨?_, ?_, rfl, ⟨badRequest "page must be an integer >= 1", rfl, rfl, rfl⟩,
    ⟨badRequest "limit must be an integer between 1 and 100", rfl, rfl, rfl⟩⟩
  · intro query r hok
    rw [parsePagination_eq] at hok
    rcases hp : effPageNum query with _ | pi | _ <;> rw [hp] at hok
    · simp [JNum.isInteger] at hok
    · by_cases hpi : pi < 1
      · simp [JNum.isInteger, JNum.ltInt, hpi] at hok
      · rcases hl : effLimitNum query with _ | li | _ <;> rw [hl] at hok
        · simp [JNum.isInteger, JNum.ltInt, hpi] at hok
        · by_cases hli : li < 1
          · simp [JNum.isInteger, JNum.ltInt, JNum.gtInt, hpi, hli] at hok
          · by_cases hgi : li > 100
            · simp [JNum.isInteger, JNum.ltInt, JNum.gtInt, hpi, hli, hgi] at hok
            · simp [JNum.isInteger, JNum.ltInt, JNum.gtInt, JNum.toInt, hpi, hli, hgi] at hok
              subst hok
              exact ⟨rfl, rfl, rfl, by show (1 : Int) ≤ pi; omega,
                by show (1 : Int) ≤ li; omega, by show (li : Int) ≤ 100; omega⟩
        · simp [JNum.isInteger, JNum.ltInt, hpi] at hok
    · simp [JNum.isInteger] at hok
  · intro query
    rw [parsePagination_eq]
    rcases hp : effPageNum query with _ | pi | _
    · simp only [JNum.isInteger, Bool.not_false, Bool.true_or, if_pos]
      constructor
      · intro _
        rintro ⟨p, l, hpeq, _⟩
        exact JNum.noConfusion hpeq
      · intro _
        exact ⟨badRequest "page must be an integer >= 1", rfl, rfl, rfl⟩
    · by_cases hpi : pi < 1
      · have hc1 : (!(JNum.int pi).isInteger || (JNum.int pi).ltInt 1) = true := by
          simp [JNum.isInteger, JNum.ltInt, hpi]
        rw [hc1, if_pos rfl]
        constructor
        · intro _
          rintro ⟨p, l, hpeq, _, hp1, _⟩
          cases hpeq
          omega
        · intro _
          exact ⟨badRequest "page must be an integer >= 1", rfl, rfl, rfl⟩
      · have hc1 : (!(JNum.int pi).isInteger || (JNum.int pi).ltInt 1) = false := by
          simp [JNum.isInteger, JNum.ltInt, hpi]
        rw [hc1]
        simp only [Bool.false_eq_true, if_false]
        rcases hl : effLimitNum query with _ | li | _
        · simp only [JNum.isInteger, Bool.not_false, Bool.true_or, if_pos]
          constructor
          · intro _
            rintro ⟨p, l, _, hleq, _⟩
            exact JNum.noConfusion hleq
          · intro _
            exact ⟨badRequest "limit must be an integer between 1 and 100", rfl, rfl, rfl⟩
        · by_cases hbad : li < 1 ∨ li > 100
          · have hc2 : (!(JNum.int li).isInteger || (JNum.int li).ltInt 1 ||
                (JNum.int li).gtInt 100) = true := by
              simp only [JNum.isInteger, JNum.ltInt, JNum.gtInt, Bool.not_true, Bool.false_or,
                Bool.or_eq_true, decide_eq_true_eq]
              omega
            rw [hc2, if_pos rfl]
            constructor
            · intro _
              rintro ⟨p, l, hpeq, hleq, _, hl1, hl100⟩
              cases hpeq
              cases hleq
              omega
            · intro _
              exact ⟨badRequest "limit must be an integer between 1 and 100", rfl, rfl, rfl⟩
          · have hc2 : (!(JNum.int li).isInteger || (JNum.int li).ltInt 1 ||
                (JNum.int li).gtInt 100) = false := by
              simp only [JNum.isInteger, JNum.ltInt, JNum.gtInt, Bool.not_true, Bool.false_or,
                Bool.or_eq_false_iff, decide_eq_false_iff_not]
              omega
            rw [hc2]
            simp only [Bool.false_eq_true, if_false]
            constructor
            · rintro ⟨err, herr, _⟩
              exact Except.noConfusion herr
            · intro hno
              exact absurd ⟨pi, li, rfl, rfl, by omega, by omega, by omega⟩ hno
        · simp only [JNum.isInteger, Bool.not_false, Bool.true_or, if_pos]
          constructor
          · intro _
            rintro ⟨p, l, _, hleq, _⟩
            exact JNum.noConfusion hleq
          · intro _
            exact ⟨badRequest "limit must be an integer between 1 and 100", rfl, rfl, rfl⟩
    · simp only [JNum.isInteger, Bool.not_false, Bool.true_or, if_pos]
      constructor
      · intro _
        rintro ⟨p, l, hpeq, _⟩
        exact JNum.noConfusion hpeq
      · intro _
        exact ⟨badRequest "page must be an integer >= 1", rfl, rfl, rfl⟩

/-- C4 witness: instantiating the success clause at a concrete query. -/
theorem parsePagination_spec_witness :
    Pagination.skip ⟨3, 20, 40⟩ = (3 - 1) * 20 ∧ 1 ≤ (3 : Int) :=
  ⟨(parsePagination_spec.1 [("page", JSValue.str "3"), ("limit", JSValue.str "20")]
      ⟨3, 20, 40⟩ rfl).1, (parsePagination_spec.1
      [("page", JSValue.str "3"), ("limit", JSValue.str "20")] ⟨3, 20, 40⟩ rfl).2.2.2.1⟩

/-! ## C5: terminal error handler -/

/-- C5: the terminal error handler emits exactly one envelope: a known ORM
error is mapped by code (P2002 → 409 CONFLICT, P2003 → 400 BAD_REQUEST,
P2025 → 404 NOT_FOUND, any other known code → 500 INTERNAL_ERROR); an
`AppError` has its statusCode, code, message and details passed through
verbatim; any unrecognized error becomes 500 INTERNAL_ERROR with the
underlying message in `details` only when `NODE_ENV` is not production. -/
theorem errorHandler_spec :
    (∀ env meta, errorHandler env (CaughtError.prismaKnown "P2002" meta) =
      ⟨409, "CONFLICT", "Resource already exists", meta⟩) ∧
    (∀ env meta, errorHandler env (CaughtError.prismaKnown "P2003" meta) =
      ⟨400, "BAD_REQUEST", "Invalid relation reference", meta⟩) ∧
    (∀ env meta, errorHandler env (CaughtError.prismaKnown "P2025" meta) =
      ⟨404, "NOT_FOUND", "Resource not found", meta⟩) ∧
    (∀ env code meta, code ≠ "P2002" → code ≠ "P2003" → code ≠ "P2025" →
      errorHandler env (CaughtError.prismaKnown code meta) =
        ⟨500, "INTERNAL_ERROR", "Database request failed", meta⟩) ∧
    (∀ env e, errorHandler env (CaughtError.appError e) =
      ⟨e.statusCode, e.code, e.message, e.details⟩) ∧
    (∀ env msg, errorHandler env (CaughtError.other msg) =
      ⟨500, "INTERNAL_ERROR", "Internal server error",
        if env = "production" then none else some (msg.getD "Unknown error")⟩) := by
  refine ⟨fun env meta => rfl, fun env meta => rfl, fun env meta => rfl,
    fun env code meta h1 h2 h3 => ?_, fun env e => rfl, fun env msg => rfl⟩
  simp [errorHandler, normalizePrismaError, h1, h2, h3]

/-- C5 witness: an unknown ORM code maps to 500 INTERNAL_ERROR. -/
theorem errorHandler_spec_witness :
    errorHandler "development" (CaughtError.prismaKnown "P9999" none) =
      ⟨500, "INTERNAL_ERROR", "Database request failed", none⟩ :=
  errorHandler_spec.2.2.2.1 "development" "P9999" none (by decide) (by decide) (by decide)

/-! ## C6: category delete guard -/

/-- C6: deleting a category — absent id → 404 and the table unchanged;
present with at least one dependent blog → 409 CONFLICT and the category is
still there (the delete call is never reached); present with zero dependent
blogs → deleted with 204. -/
theorem deleteCategory_spec (cats : List CategoryRec) (id : String) :
    (findCategory cats id = none →
      deleteCategory cats id =
        (Except.error ⟨404, "NOT_FOUND", "Category not found", none⟩, cats)) ∧
    (∀ c, findCategory cats id = some c → 0 < c.blogCount →
      deleteCategory cats id =
        (Except.error ⟨409, "CONFLICT", "Cannot delete category with existing blogs", none⟩,
          cats) ∧
      findCategory (deleteCategory cats id).2 id = some c) ∧
    (∀ c, findCategory cats id = some c → c.blogCount = 0 →
      deleteCategory cats id = (Except.ok 204, cats.filter (fun c => c.id != id))) := by
  refine ⟨fun hnone => ?_, fun c hc hpos => ?_, fun c hc hzero => ?_⟩
  · simp [deleteCategory, hnone]
  · have : deleteCategory cats id =
        (Except.error ⟨409, "CONFLICT", "Cannot delete category with existing blogs", none⟩,
          cats) := by
      simp [deleteCategory, hc, hpos]
    exact ⟨this, by rw [this]; exact hc⟩
  · simp [deleteCategory, hc, hzero]

/-- C6 witness: a category with two dependent blogs is not deleted. -/
theorem deleteCategory_spec_witness :
    deleteCategory [⟨"c1", 2⟩] "c1" =
      (Except.error ⟨409, "CONFLICT", "Cannot delete category with existing blogs", none⟩,
        [⟨"c1", 2⟩]) ∧
    findCategory (deleteCategory [⟨"c1", 2⟩] "c1").2 "c1" = some ⟨"c1", 2⟩ :=
  (deleteCategory_spec [⟨"c1", 2⟩] "c1").2.1 ⟨"c1", 2⟩ rfl (by decide)

/-! ## C7: upload file-count rejection precedes storage calls -/

theorem exceptBindError {α β : Type} (e : AppError) (f : α → Except AppError β) :
    (Except.error e : Except AppError α) >>= f = Except.error e := rfl

theorem exceptBindOk {α β : Type} (a : α) (f : α → Except AppError β) :
    (Except.ok a : Except AppError α) >>= f = f a := rfl

theorem validateRequiredString_error_bad (v : JSValue) (fn : String) :
    ∀ e, validateRequiredString v fn = Except.error e →
      e.statusCode = 400 ∧ e.code = "BAD_REQUEST" := by
  intro e he
  cases v <;> simp only [validateRequiredString] at he
  case str s =>
    by_cases ht : (jsTrim s).isEmpty = true
    · rw [if_pos ht] at he
      cases he
      exact ⟨rfl, rfl⟩
    · rw [if_neg ht] at he
      exact Except.noConfusion he
  all_goals cases he; exact ⟨rfl, rfl⟩

theorem parseUploadFolder_error_bad (v : JSValue) :
    ∀ e, parseUploadFolder v = Except.error e → e.statusCode = 400 ∧ e.code = "BAD_REQUEST" := by
  intro e he
  have hunfold : parseUploadFolder v = validateRequiredString v "folder" >>= fun folder =>
      if !ALLOWED_FOLDERS.contains folder then
        Except.error (badRequest "folder must be either projects or blogs")
      else Except.ok folder := rfl
  rw [hunfold] at he
  rcases hval : validateRequiredString v "folder" with e' | s <;> rw [hval] at he
  · rw [exceptBindError] at he
    cases he
    exact validateRequiredString_error_bad v "folder" _ hval
  · rw [exceptBindOk] at he
    by_cases hc : ALLOWED_FOLDERS.contains s = true
    · rw [if_neg (by rw [hc]; simp)] at he
      exact Except.noConfusion he
    · rw [if_pos (by rw [Bool.eq_false_iff.mpr hc]; rfl)] at he
      cases he
      exact ⟨rfl, rfl⟩

theorem multerScan_over_limit : ∀ (files : List UploadFile) (idx : Nat), idx ≤ 10 →
    10 < idx + files.length →
    ∃ e, multerScan files idx = some e ∧ e.statusCode = 400 ∧ e.code = "BAD_REQUEST" := by
  intro files
  induction files with
  | nil =>
    intro idx h1 h2
    simp at h2
    omega
  | cons f rest ih =>
    intro idx h1 h2
    have hstep : multerScan (f :: rest) idx =
        (if idx ≥ MAX_FILES then some (badRequest "You can upload up to 10 images at once")
         else if !ALLOWED_MIME_TYPES.contains f.mimetype then
           some (badRequest "Only JPG, PNG, WEBP, and GIF are allowed")
         else if f.size > MAX_FILE_SIZE_BYTES then
           some (badRequest "Each image must be 5MB or smaller")
         else multerScan rest (idx + 1)) := rfl
    by_cases hidx : idx ≥ MAX_FILES
    · refine ⟨badRequest "You can upload up to 10 images at once", ?_, rfl, rfl⟩
      rw [hstep, if_pos hidx]
    · by_cases hmime : ALLOWED_MIME_TYPES.contains f.mimetype = true
      · by_cases hsize : f.size > MAX_FILE_SIZE_BYTES
        · refine ⟨badRequest "Each image must be 5MB or smaller", ?_, rfl, rfl⟩
          rw [hstep, if_neg hidx, if_neg (by rw [hmime]; simp), if_pos hsize]
        · have step2 : multerScan (f :: rest) idx = multerScan rest (idx + 1) := by
            rw [hstep, if_neg hidx, if_neg (by rw [hmime]; simp), if_neg hsize]
          rw [step2]
          refine ih (idx + 1) ?_ ?_
          · simp [MAX_FILES] at hidx
            omega
          · simp at h2
            omega
      · refine ⟨badRequest "Only JPG, PNG, WEBP, and GIF are allowed", ?_, rfl, rfl⟩
        rw [hstep, if_neg hidx, if_pos (by rw [Bool.eq_false_iff.mpr hmime]; rfl)]

/-- C7: a request with more than 10 files is rejected with BAD_REQUEST and no
storage upload call is made — by the multer middleware on the composed route,
and by the controller's own count check even if the middleware is bypassed. -/
theorem uploadRoute_file_count_spec (storage : Nat → StorageReply) (folderVal : JSValue)
    (files : List UploadFile) (h : files.length > 10) :
    ((uploadRoute storage folderVal files).storageCalls = 0 ∧
      ∃ e, (uploadRoute storage folderVal files).response = Except.error e ∧
        e.statusCode = 400 ∧ e.code = "BAD_REQUEST") ∧
    ((uploadImages storage folderVal files).storageCalls = 0 ∧
      ∃ e, (uploadImages storage folderVal files).response = Except.error e ∧
        e.statusCode = 400 ∧ e.code = "BAD_REQUEST") := by
  have hctrl : (uploadImages storage folderVal files).storageCalls = 0 ∧
      ∃ e, (uploadImages storage folderVal files).response = Except.error e ∧
        e.statusCode = 400 ∧ e.code = "BAD_REQUEST" := by
    rcases hf : parseUploadFolder folderVal with e | f
    · refine ⟨?_, e, ?_, parseUploadFolder_error_bad folderVal e hf⟩
      · simp [uploadImages, hf]
      · simp [uploadImages, hf]
    · have hgt : files.length > MAX_FILES := by
        simp only [MAX_FILES]
        omega
      have hueq : uploadImages storage folderVal files =
          ⟨Except.error (badRequest "Upload between 1 and 10 images"), 0⟩ := by
        have hunf : uploadImages storage folderVal files =
            (match parseUploadFolder folderVal with
             | Except.error e => ⟨Except.error e, 0⟩
             | Except.ok _ =>
               if files.length < 1 || files.length > MAX_FILES then
                 ⟨Except.error (badRequest "Upload between 1 and 10 images"), 0⟩
               else uploadLoop storage files 0 []) := rfl
        rw [hunf, hf]
        rw [if_pos (by simp [hgt])]
      refine ⟨by rw [hueq], badRequest "Upload between 1 and 10 images", by rw [hueq], rfl, rfl⟩
  refine ⟨?_, hctrl⟩
  obtain ⟨e, hscan, he400, hecode⟩ := multerScan_over_limit files 0 (by omega) (by omega)
  refine ⟨?_, e, ?_, he400, hecode⟩
  · simp [uploadRoute, hscan]
  · simp [uploadRoute, hscan]

/-- C7 witness: a request with 11 files makes zero storage calls and is
rejected with BAD_REQUEST. -/
theorem uploadRoute_file_count_spec_witness :
    (uploadRoute (fun _ => StorageReply.publicUrl none) (JSValue.str "projects")
        (List.replicate 11 ⟨"a.png", "image/png", 1, 1⟩)).storageCalls = 0 ∧
    ∃ e, (uploadRoute (fun _ => StorageReply.publicUrl none) (JSValue.str "projects")
        (List.replicate 11 ⟨"a.png", "image/png", 1, 1⟩)).response = Except.error e ∧
      e.statusCode = 400 ∧ e.code = "BAD_REQUEST" :=
  (uploadRoute_file_count_spec (fun _ => StorageReply.publicUrl none) (JSValue.str "projects")
      (List.replicate 11 ⟨"a.png", "image/png", 1, 1⟩) (by decide)).1

/-! ## C8: auth middleware -/

/-- C8: `requireAuth` succeeds iff the Authorization header is present, starts
with `"Bearer "`, carries a non-empty token after the prefix, and the token
verifies; the attached identity is exactly the verified payload; every
rejection is a 401 UNAUTHORIZED `AppError`. -/
theorem requireAuth_spec (verify : String → Option AuthPayload) (authHeader : Option String) :
    ((∃ p, requireAuth verify authHeader = Except.ok p) ↔
      ∃ h, authHeader = some h ∧ jsStartsWith h "Bearer " = true ∧
        (jsTrim (jsDrop h 7)).isEmpty = false ∧ (verify (jsTrim (jsDrop h 7))).isSome = true) ∧
    (∀ p, requireAuth verify authHeader = Except.ok p →
      ∃ h, authHeader = some h ∧ verify (jsTrim (jsDrop h 7)) = some p) ∧
    (∀ e, requireAuth verify authHeader = Except.error e →
      e.statusCode = 401 ∧ e.code = "UNAUTHORIZED") := by
  cases authHeader with
  | none =>
    refine ⟨⟨fun ⟨p, hp⟩ => Except.noConfusion hp, fun ⟨h, hh, _⟩ => Option.noConfusion hh⟩,
      fun p hp => Except.noConfusion hp, fun e he => ?_⟩
    simp only [requireAuth] at he
    cases he
    exact ⟨rfl, rfl⟩
  | some h =>
    by_cases hbear : jsStartsWith h "Bearer " = true
    · have hemp : h.isEmpty = false := by
        rw [Bool.eq_false_iff]
        intro he
        rw [(String.isEmpty_iff h).mp he] at hbear
        simp [jsStartsWith, headMatches] at hbear
      by_cases htok : (jsTrim (jsDrop h 7)).isEmpty = true
      · have hred : requireAuth verify (some h) =
            Except.error ⟨401, "UNAUTHORIZED", "Missing access token", none⟩ := by
          simp [requireAuth, hemp, hbear, htok]
        refine ⟨⟨fun ⟨p, hp⟩ => ?_, fun ⟨h', hh', _, hne, _⟩ => ?_⟩, fun p hp => ?_,
          fun e he => ?_⟩
        · rw [hred] at hp; exact Except.noConfusion hp
        · cases hh'; rw [htok] at hne; exact Bool.noConfusion hne
        · rw [hred] at hp; exact Except.noConfusion hp
        · rw [hred] at he; cases he; exact ⟨rfl, rfl⟩
      · have htok' : (jsTrim (jsDrop h 7)).isEmpty = false := by
          cases hx : (jsTrim (jsDrop h 7)).isEmpty
          · rfl
          · exact absurd hx htok
        cases hv : verify (jsTrim (jsDrop h 7)) with
        | some p =>
          have hred : requireAuth verify (some h) = Except.ok p := by
            simp [requireAuth, hemp, hbear, htok', hv]
          refine ⟨⟨fun _ => ⟨h, rfl, hbear, htok', by rw [hv]; rfl⟩, fun _ => ⟨p, hred⟩⟩,
            fun q hq => ⟨h, rfl, ?_⟩, fun e he => ?_⟩
          · rw [hred] at hq
            cases hq
            exact hv
          · rw [hred] at he
            exact Except.noConfusion he
        | none =>
          have hred : requireAuth verify (some h) =
              Except.error ⟨401, "UNAUTHORIZED", "Invalid or expired token", none⟩ := by
            simp [requireAuth, hemp, hbear, htok', hv]
          refine ⟨⟨fun ⟨p, hp⟩ => ?_, fun ⟨h', hh', _, _, hsome⟩ => ?_⟩, fun p hp => ?_,
            fun e he => ?_⟩
          · rw [hred] at hp; exact Except.noConfusion hp
          · cases hh'; rw [hv] at hsome; exact Bool.noConfusion hsome
          · rw [hred] at hp; exact Except.noConfusion hp
          · rw [hred] at he; cases he; exact ⟨rfl, rfl⟩
    · have hred : requireAuth verify (some h) =
          Except.error ⟨401, "UNAUTHORIZED", "Missing or invalid Authorization header", none⟩ := by
        have : (h.isEmpty || !jsStartsWith h "Bearer ") = true := by
          cases hx : jsStartsWith h "Bearer "
          · simp
          · exact absurd hx hbear
        simp [requireAuth, this]
      refine ⟨⟨fun ⟨p, hp⟩ => ?_, fun ⟨h', hh', hb, _⟩ => ?_⟩, fun p hp => ?_, fun e he => ?_⟩
      · rw [hred] at hp; exact Except.noConfusion hp
      · cases hh'; exact absurd hb hbear
      · rw [hred] at hp; exact Except.noConfusion hp
      · rw [hred] at he; cases he; exact ⟨rfl, rfl⟩

/-- C8 witness: a well-formed bearer header with a verifying token attaches
the verified payload. -/
theorem requireAuth_spec_witness :
    ∃ h, (some "Bearer tok" : Option String) = some h ∧
      (fun t => if t = "tok" then some (⟨"u1", "a@b"⟩ : AuthPayload) else none)
        (jsTrim (jsDrop h 7)) = some ⟨"u1", "a@b"⟩ :=
  (requireAuth_spec (fun t => if t = "tok" then some ⟨"u1", "a@b"⟩ else none)
      (some "Bearer tok")).2.1 ⟨"u1", "a@b"⟩ rfl

/-! ## C10: totalPages of list responses -/

theorem except_ok_of_bind {α β : Type} {x : Except AppError α} {f : α → Except AppError β}
    {b : β} (h : x >>= f = Except.ok b) : ∃ a, x = Except.ok a ∧ f a = Except.ok b := by
  rcases x with e | a
  · exact Except.noConfusion h
  · exact ⟨a, rfl, h⟩

theorem parsePagination_ok_limit (query : List (String × JSValue)) (r : Pagination)
    (hok : parsePagination query = Except.ok r) : 1 ≤ r.limit := by
  rw [parsePagination_eq] at hok
  rcases hp : effPageNum query with _ | pi | _ <;> rw [hp] at hok
  · simp [JNum.isInteger] at hok
  · by_cases hpi : pi < 1
    · simp [JNum.isInteger, JNum.ltInt, hpi] at hok
    · rcases hl : effLimitNum query with _ | li | _ <;> rw [hl] at hok
      · simp [JNum.isInteger, JNum.ltInt, hpi] at hok
      · by_cases hli : li < 1
        · simp [JNum.isInteger, JNum.ltInt, JNum.gtInt, hpi, hli] at hok
        · by_cases hgi : li > 100
          · simp [JNum.isInteger, JNum.ltInt, JNum.gtInt, hpi, hli, hgi] at hok
          · simp [JNum.isInteger, JNum.ltInt, JNum.gtInt, JNum.toInt, hpi, hli, hgi] at hok
            subst hok
            show (1 : Int) ≤ li
            omega
      · simp [JNum.isInteger, JNum.ltInt, hpi] at hok
  · simp [JNum.isInteger] at hok

theorem jsTotalPages_eq_ceil (total : Nat) (limit : Int) (hl : 1 ≤ limit) :
    1 ≤ jsTotalPages total limit ∧
      jsTotalPages total limit = if total = 0 then 1 else total ⌈/⌉ limit.toNat := by
  have hL : 1 ≤ limit.toNat := by omega
  have hjs : jsTotalPages total limit =
      if (total + limit.toNat - 1) / limit.toNat = 0 then 1
      else (total + limit.toNat - 1) / limit.toNat := rfl
  by_cases h0 : total = 0
  · subst h0
    have hz : (0 + limit.toNat - 1) / limit.toNat = 0 := Nat.div_eq_of_lt (by omega)
    rw [hjs, if_pos hz, if_pos rfl]
    exact ⟨le_refl 1, rfl⟩
  · have hpos : 1 ≤ (total + limit.toNat - 1) / limit.toNat :=
      (Nat.one_le_div_iff (by omega)).mpr (by omega)
    have hceil : total ⌈/⌉ limit.toNat = (total + limit.toNat - 1) / limit.toNat :=
      Nat.ceilDiv_eq_add_pred_div total limit.toNat
    rw [hjs, if_neg (by omega), if_neg h0, hceil]
    exact ⟨hpos, rfl⟩

theorem listProjects_ok_inv (query : List (String × JSValue)) (total : Nat)
    (r : ListResponseMeta) (hok : listProjects query total = Except.ok r) :
    ∃ p, parsePagination query = Except.ok p ∧
      r = ⟨p.page, p.limit, total, jsTotalPages total p.limit⟩ := by
  obtain ⟨p, hp, hok⟩ := except_ok_of_bind hok
  obtain ⟨s, hs, hok⟩ := except_ok_of_bind hok
  cases hok
  exact ⟨p, hp, rfl⟩

theorem listBlogs_ok_inv (query : List (String × JSValue)) (total : Nat)
    (r : ListResponseMeta) (hok : listBlogs query total = Except.ok r) :
    ∃ p, parsePagination query = Except.ok p ∧
      r = ⟨p.page, p.limit, total, jsTotalPages total p.limit⟩ := by
  obtain ⟨p, hp, hok⟩ := except_ok_of_bind hok
  obtain ⟨s, hs, hok⟩ := except_ok_of_bind hok
  obtain ⟨c, hc, hok⟩ := except_ok_of_bind hok
  cases hok
  exact ⟨p, hp, rfl⟩

/-- C10: every successful `listProjects` / `listBlogs` response has
`meta.totalPages = ⌈total / limit⌉` when `total > 0` and `1` when
`total = 0`; in particular `totalPages ≥ 1` even for an empty result set. -/
theorem listMeta_totalPages_spec :
    (∀ query total r, listProjects query total = Except.ok r →
      r.total = total ∧ 1 ≤ r.totalPages ∧
        r.totalPages = if total = 0 then 1 else total ⌈/⌉ r.limit.toNat) ∧
    (∀ query total r, listBlogs query total = Except.ok r →
      r.total = total ∧ 1 ≤ r.totalPages ∧
        r.totalPages = if total = 0 then 1 else total ⌈/⌉ r.limit.toNat) := by
  constructor
  · intro query total r hok
    obtain ⟨p, hp, rfl⟩ := listProjects_ok_inv query total r hok
    have hl := parsePagination_ok_limit query p hp
    obtain ⟨h1, h2⟩ := jsTotalPages_eq_ceil total p.limit hl
    exact ⟨rfl, h1, h2⟩
  · intro query total r hok
    obtain ⟨p, hp, rfl⟩ := listBlogs_ok_inv query total r hok
    have hl := parsePagination_ok_limit query p hp
    obtain ⟨h1, h2⟩ := jsTotalPages_eq_ceil total p.limit hl
    exact ⟨rfl, h1, h2⟩

/-- C10 witness: an empty listing still reports one page. -/
theorem listMeta_totalPages_spec_witness :
    (⟨1, 10, 0, 1⟩ : ListResponseMeta).total = 0 ∧
      1 ≤ (⟨1, 10, 0, 1⟩ : ListResponseMeta).totalPages ∧
      (⟨1, 10, 0, 1⟩ : ListResponseMeta).totalPages =
        if (0 : Nat) = 0 then 1 else (0 : Nat) ⌈/⌉ ((10 : Int)).toNat :=
  listMeta_totalPages_spec.1 [] 0 ⟨1, 10, 0, 1⟩ rfl

/-! ## C9: URL validation and the find-sentinel slip -/

/-- C9: the URL check accepts exactly the strings whose parsed protocol is
`http:`/`https:` — `https://example.com/x` is accepted, `ftp://x` and
non-URL strings are rejected, and a non-string entry such as `null` makes
`validateImageLinks` throw BAD_REQUEST. But the source compares the result of
`Array.prototype.find` against `undefined`, so an array whose offending entry
is literally `undefined` is accepted and returned as a valid image list —
contradicting the claim that every entry must satisfy the URL check. -/
theorem validateImageLinks_undef_bug :
    isValidHttpUrl "https://example.com/x" = true ∧
    isValidHttpUrl "ftp://x" = false ∧
    isValidHttpUrl "not a url" = false ∧
    (∃ err, validateImageLinks (JSValue.arr [JSValue.null]) "images" = Except.error err ∧
      err.statusCode = 400 ∧ err.code = "BAD_REQUEST") ∧
    validateImageLinks (JSValue.arr [JSValue.undef]) "images" = Except.ok [""] :=
  ⟨rfl, rfl, rfl,
    ⟨badRequest "images must only contain valid http/https URLs", rfl, rfl, rfl⟩, rfl⟩

/-! ## C1: the isCurrent/endMonth invariant -/

theorem createExperience_current_inv (sanitize : String → String)
    (body : List (String × JSValue)) (r : Experience)
    (hok : createExperience sanitize body = Except.ok r) :
    r.isCurrent = true → r.endMonth = none := by
  obtain ⟨company, hc, hok⟩ := except_ok_of_bind hok
  obtain ⟨role, hr, hok⟩ := except_ok_of_bind hok
  obtain ⟨et, he1, hok⟩ := except_ok_of_bind hok
  obtain ⟨loc, he2, hok⟩ := except_ok_of_bind hok
  obtain ⟨sm, he3, hok⟩ := except_ok_of_bind hok
  obtain ⟨em, he4, hok⟩ := except_ok_of_bind hok
  obtain ⟨sh, he5, hok⟩ := except_ok_of_bind hok
  obtain ⟨hi, he6, hok⟩ := except_ok_of_bind hok
  obtain ⟨tt, he7, hok⟩ := except_ok_of_bind hok
  obtain ⟨lk, he8, hok⟩ := except_ok_of_bind hok
  obtain ⟨so, he9, hok⟩ := except_ok_of_bind hok
  obtain ⟨u, he10, hok⟩ := except_ok_of_bind hok
  cases hok
  intro hcur
  exact if_pos hcur

/-- C1: `createExperience` always persists `endMonth = null` for a current
entry, but `updateExperience` breaks the invariant: a PATCH body containing
only `isCurrent: true` validates the merged state with `nextEndMonth = null`
yet writes `endMonth` only when the body carries that key, so the stored
record keeps its old non-null `endMonth` next to `isCurrent = true`. -/
theorem experience_isCurrent_endMonth_bug :
    (∀ sanitize body r, createExperience sanitize body = Except.ok r →
      r.isCurrent = true → r.endMonth = none) ∧
    updateExperience (fun s => s) exRecC1 [("isCurrent", JSValue.bool true)] =
      Except.ok { exRecC1 with isCurrent := true } ∧
    ({ exRecC1 with isCurrent := true }).isCurrent = true ∧
    ({ exRecC1 with isCurrent := true }).endMonth = some "2020-06" :=
  ⟨createExperience_current_inv, rfl, rfl, rfl⟩

/-- C1 witness: a concrete create marked current produces a null end month. -/
theorem experience_isCurrent_endMonth_bug_witness :
    (Experience.mk "Acme" "Engineer" none none "2023-01" none true "<p>x</p>" [] [] [] 0).endMonth
      = none :=
  experience_isCurrent_endMonth_bug.1 (fun s => s) cBodyC1
    (Experience.mk "Acme" "Engineer" none none "2023-01" none true "<p>x</p>" [] [] [] 0) rfl rfl

end HeyDwiki
